import Mathlib

/-!
Verification development for the Bonepile_view analytics backend
(`src/analytics_server.py`).

The Python source is shallowly embedded in Lean: pure helper functions map
to Lean functions over `String` / `List Char`, the SQLite tables map to
lists of structures, and per-job control flow maps to explicit state
transformers.  Python machine integers are `Nat`/`Int` (no overflow
occurs in the modelled code paths).

Embedding conventions for Python string primitives:
* `str.strip`  ↦ `pyStrip`  (drop whitespace at both ends),
* `str.upper`  ↦ `pyUpper`, `str.lower` ↦ `pyLower` (`Char.toUpper`/`toLower`;
  the served data is ASCII),
* `needle in hay` ↦ `pyContains` (substring test).
-/

namespace Bonepile

/-- Python `str.strip()` on the underlying character list. -/
def stripChars (l : List Char) : List Char :=
  ((l.dropWhile Char.isWhitespace).reverse.dropWhile Char.isWhitespace).reverse

/-- Python `str.strip()`. -/
def pyStrip (s : String) : String := String.mk (stripChars s.data)

/-- Python `str.upper()` (ASCII). -/
def pyUpper (s : String) : String := String.mk (s.data.map Char.toUpper)

/-- Python `str.lower()` (ASCII). -/
def pyLower (s : String) : String := String.mk (s.data.map Char.toLower)

/-- Python `needle in hay` substring test. -/
def pyContains (hay needle : String) : Bool := decide (needle.data <:+: hay.data)

/-- Python string comparison `<` (lexicographic by code point) on the
underlying character lists. -/
def strLt : List Char → List Char → Bool
  | [], [] => false
  | [], _ :: _ => true
  | _ :: _, [] => false
  | a :: as, b :: bs =>
    if a.toNat < b.toNat then true
    else if b.toNat < a.toNat then false
    else strLt as bs

/-- `dropWhile` is idempotent. -/
theorem dropWhile_dropWhile (p : Char → Bool) (l : List Char) :
    (l.dropWhile p).dropWhile p = l.dropWhile p := by
  induction l with
  | nil => simp
  | cons c rest ih =>
    by_cases h : p c
    · simp [List.dropWhile_cons, h, ih]
    · simp [List.dropWhile_cons, h]

/-- The head of `dropWhile p l` does not satisfy `p`. -/
theorem head_dropWhile_false (p : Char → Bool) (l : List Char) (c : Char)
    (h : (l.dropWhile p).head? = some c) : p c = false := by
  induction l with
  | nil => simp at h
  | cons a rest ih =>
    by_cases ha : p a
    · simp [List.dropWhile_cons, ha] at h
      exact ih h
    · simp [List.dropWhile_cons, ha] at h
      subst h
      exact Bool.not_eq_true _ ▸ (by simpa using ha)

/-- If the head of `l` does not satisfy `p`, `dropWhile p l = l`. -/
theorem dropWhile_eq_self_of_head (p : Char → Bool) (l : List Char)
    (h : ∀ c, l.head? = some c → p c = false) : l.dropWhile p = l := by
  cases l with
  | nil => simp
  | cons a rest =>
    have := h a rfl
    simp [List.dropWhile_cons, this]

/-- `stripChars` is idempotent. -/
theorem stripChars_idem (l : List Char) : stripChars (stripChars l) = stripChars l := by
  unfold stripChars
  set w := Char.isWhitespace with hw
  set a := l.dropWhile w with ha
  -- first pass result:
  set b := (a.reverse.dropWhile w).reverse with hb
  -- heads of `b` and of `b.reverse` do not satisfy `w`
  have hbhead : ∀ c, b.head? = some c → w c = false := by
    intro c hc
    -- head of b is head of a (when both nonempty): b is a with a whitespace
    -- suffix removed, so b is a prefix of a.
    have hpre : b.reverse <:+ a.reverse := by
      rw [hb]
      simp only [List.reverse_reverse]
      exact List.dropWhile_suffix w
    have hpre' : b <+: a := by
      have := List.reverse_suffix.mp hpre
      simpa using this
    rcases hpre' with ⟨t, hta⟩
    have hahead : a.head? = some c := by
      cases hb2 : b with
      | nil => rw [hb2] at hc; simp at hc
      | cons x xs =>
        rw [hb2] at hc
        simp at hc
        rw [← hta, hb2]
        simp [hc]
    rw [ha] at hahead
    exact head_dropWhile_false w l c hahead
  have h1 : b.dropWhile w = b := dropWhile_eq_self_of_head w b hbhead
  rw [h1]
  have hrevhead : ∀ c, b.reverse.head? = some c → w c = false := by
    intro c hc
    have : b.reverse = (a.reverse.dropWhile w) := by
      rw [hb]; simp
    rw [this] at hc
    exact head_dropWhile_false w a.reverse c hc
  have h2 : b.reverse.dropWhile w = b.reverse := dropWhile_eq_self_of_head w b.reverse hrevhead
  rw [h2]
  simp

/-- `pyStrip` is idempotent (as Python `str.strip` is). -/
theorem pyStrip_idem (s : String) : pyStrip (pyStrip s) = pyStrip s := by
  unfold pyStrip
  simp [stripChars_idem]

/-! ### Final-pass rule (source: `analytics_server.py` lines 72-292) -/

/-- Source constant `PASS_AT_FCT_PART_NUMBERS` (a one-entry set). -/
def PASS_AT_FCT_PART_NUMBERS : List String := ["675-24109-0010-TS2"]

/-- Source `get_pass_station_for_part_number`: trim + uppercase the part
number; override set first, then the TS2 → NVL rule, else FCT.  The Python
`None` argument case is not modelled because `raw_entries.part_number`
is NOT NULL. -/
def get_pass_station_for_part_number (part_number : String) : String :=
  let pn := pyUpper (pyStrip part_number)
  if PASS_AT_FCT_PART_NUMBERS.contains pn then "FCT"
  else if pyContains pn "TS2" then "NVL"
  else "FCT"

/-- Source `is_final_pass`: status must be `"P"`, unknown/empty part numbers
are never a final pass, otherwise compare the normalized station to the
pass-station of the (stripped) part number. -/
def is_final_pass (sn_status station part_number : String) : Bool :=
  if sn_status ≠ "P" then false
  else
    let st := pyUpper (pyStrip station)
    let pn := pyStrip part_number
    if pn = "" ∨ pyLower pn = "unknown" then false
    else st = get_pass_station_for_part_number pn

/-- Pass-station rule written from the spec's words (section 4.5.2): FCT by
default, NVL when the uppercased part number contains `TS2`, override table
`{675-24109-0010-TS2 → FCT}` taking priority. -/
def pass_station_spec (part_number : String) : String :=
  if pyUpper (pyStrip part_number) = "675-24109-0010-TS2" then "FCT"
  else if pyContains (pyUpper (pyStrip part_number)) "TS2" then "NVL"
  else "FCT"

/-- "Final pass" predicate written from the spec's words: `status = 'P'`,
the trimmed/uppercased station equals the pass-station of the part number,
and empty / `Unknown` (case-insensitive) part numbers are never a final
pass. -/
def final_pass_spec (sn_status station part_number : String) : Bool :=
  sn_status = "P"
  ∧ pyStrip part_number ≠ ""
  ∧ pyLower (pyStrip part_number) ≠ "unknown"
  ∧ pyUpper (pyStrip station) = pass_station_spec part_number

/-- C1: `is_final_pass` returns true iff the status is `'P'`, the part
number is neither empty nor `Unknown` (case-insensitive) after trimming,
and the trimmed, uppercased station equals the spec's pass-station for the
part number (override table first, then the TS2 → NVL rule, else FCT). -/
theorem is_final_pass_spec_correct (sn_status station part_number : String) :
    is_final_pass sn_status station part_number = final_pass_spec sn_status station part_number := by
  unfold is_final_pass final_pass_spec pass_station_spec get_pass_station_for_part_number
    PASS_AT_FCT_PART_NUMBERS
  have hidem : pyStrip (pyStrip part_number) = pyStrip part_number := pyStrip_idem part_number
  by_cases hs : sn_status = "P" <;>
    by_cases hpn : pyStrip part_number = "" <;>
      by_cases hunk : pyLower (pyStrip part_number) = "unknown" <;>
        simp [hs, hpn, hunk, hidem, List.contains_cons, decide_eq_true_eq]

/-! ### Raw test entries and the summary aggregation
(source: `compute_stats`, `analytics_server.py` lines 904-1013) -/

/-- One row of the `raw_entries` table (schema at `init_db`, lines 409-429).
`is_bonepile` and `pb_id` are nullable columns. -/
structure RawRow where
  utc_ms : Nat
  ca_ms : Nat
  ca_date : String
  ca_hour : Nat
  ca_week : String
  ca_month : String
  filename : String
  folder_path : String
  sn : String
  status : String
  station : String
  part_number : String
  is_bonepile : Option Int
  pb_id : Option String
deriving DecidableEq, Repr

/-- Distinct keys in first-occurrence order (Python dict insertion order,
as produced by `dict.setdefault` in the grouping loops). -/
def firstKeys (l : List String) : List String :=
  l.foldl (fun acc k => if acc.contains k then acc else acc ++ [k]) []

/-- The group of rows of one serial (Python `sn_tests[sn]`, input order kept). -/
def rowsOfSn (rows : List RawRow) (sn : String) : List RawRow :=
  rows.filter (fun r => r.sn = sn)

/-- Python `(t["is_bonepile"] or 0) == 1` folded with `or` over the group:
`is_bp` of a serial. -/
def snIsBp (tests : List RawRow) : Bool :=
  tests.any (fun t => t.is_bonepile.getD 0 = 1)

/-- `is_pass` of a serial: some row of the group is a final pass. -/
def snIsPass (tests : List RawRow) : Bool :=
  tests.any (fun t => is_final_pass t.status t.station t.part_number)

/-- Python `t["part_number"] or "Unknown"`. -/
def pnOrUnknown (pn : String) : String := if pn = "" then "Unknown" else pn

/-- The `latest_utc`/`latest_part` fold of `compute_stats` (lines 926-934):
strict `>` comparison against the best `utc_ms` seen so far, starting from
`-1` (modelled by `none`, which every `utc_ms ≥ 0` beats). -/
def statsLatestAux : List RawRow → Option (Nat × String) → Option (Nat × String)
  | [], acc => acc
  | t :: rest, none => statsLatestAux rest (some (t.utc_ms, pnOrUnknown t.part_number))
  | t :: rest, some (m, p) =>
    if m < t.utc_ms then statsLatestAux rest (some (t.utc_ms, pnOrUnknown t.part_number))
    else statsLatestAux rest (some (m, p))

/-- `sn_latest_part[sn]` as computed by `compute_stats` for one serial's
group of rows. -/
def statsLatestPart (tests : List RawRow) : String :=
  match statsLatestAux tests none with
  | some (_, p) => p
  | none => "Unknown"

/-- One (tested, pass, fail) cell of the summary matrix. -/
structure Cell where
  tested : Nat
  pass : Nat
  fail : Nat
deriving DecidableEq, Repr

/-- The 3 × 3 summary matrix of `compute_stats`. -/
structure Summary where
  bp : Cell
  fresh : Cell
  total : Cell
deriving DecidableEq, Repr

/-- Summary-matrix part of `compute_stats` (lines 912-955).  The single
per-serial Python loop is decomposed into the equivalent per-serial
predicates `snIsBp` / `snIsPass` over the serial's group. -/
def compute_summary (rows : List RawRow) : Summary :=
  let sns := firstKeys (rows.map (fun r => r.sn))
  let isBp := fun sn => snIsBp (rowsOfSn rows sn)
  let isPass := fun sn => snIsPass (rowsOfSn rows sn)
  let tested_total := sns.length
  let pass_total := sns.countP isPass
  let fail_total := tested_total - pass_total
  let tested_bp := sns.countP isBp
  let tested_fresh := tested_total - tested_bp
  let pass_bp := sns.countP (fun sn => isBp sn && isPass sn)
  let pass_fresh := pass_total - pass_bp
  let fail_bp := tested_bp - pass_bp
  let fail_fresh := tested_fresh - pass_fresh
  { bp := ⟨tested_bp, pass_bp, fail_bp⟩
    fresh := ⟨tested_fresh, pass_fresh, fail_fresh⟩
    total := ⟨tested_total, pass_total, fail_total⟩ }

/-- One row of the SKU table. -/
structure SkuRow where
  sku : String
  tested : Nat
  pass : Nat
  fail : Nat
deriving DecidableEq, Repr

/-- Stable insertion of `x` into `l` before the first element strictly
greater (models the stability of Python `list.sort`). -/
def stableInsert (lt : α → α → Bool) (x : α) : List α → List α
  | [] => [x]
  | y :: ys => if lt x y then x :: y :: ys else y :: stableInsert lt x ys

/-- Stable sort by a strict comparison (models Python `list.sort(key=...)`). -/
def pySort (lt : α → α → Bool) (l : List α) : List α :=
  l.foldl (fun acc x => stableInsert lt x acc) []

/-- Sort key of the SKU table: `(-tested, sku)` ascending
(string comparison by code point, as in Python). -/
def skuRowLt (a b : SkuRow) : Bool :=
  if a.tested = b.tested then strLt a.sku.data b.sku.data else decide (b.tested < a.tested)

/-- SKU-table part of `compute_stats` (lines 957-972): each serial is
assigned to its `sn_latest_part`, then unique serials are counted per SKU;
`fail` increments exactly when `pass` does not, so `fail = tested - pass`. -/
def compute_sku_rows (rows : List RawRow) : List SkuRow :=
  let sns := firstKeys (rows.map (fun r => r.sn))
  let skuOf := fun sn => pnOrUnknown (statsLatestPart (rowsOfSn rows sn))
  let skus := firstKeys (sns.map skuOf)
  let unsorted := skus.map (fun sku =>
    let members := sns.filter (fun sn => skuOf sn = sku)
    let t := members.length
    let p := members.countP (fun sn => snIsPass (rowsOfSn rows sn))
    { sku := sku, tested := t, pass := p, fail := t - p : SkuRow })
  pySort skuRowLt unsorted

/-! Counting lemmas used by the summary-consistency proof. -/

theorem countP_le_len {α} (p : α → Bool) (l : List α) : l.countP p ≤ l.length := by
  induction l with
  | nil => simp
  | cons a t ih => by_cases h : p a <;> simp [List.countP_cons, h] <;> omega

theorem countP_mono {α} (p q : α → Bool) (l : List α) (h : ∀ a, p a = true → q a = true) :
    l.countP p ≤ l.countP q := by
  induction l with
  | nil => simp
  | cons a t ih =>
    by_cases hp : p a
    · have hq := h a hp
      simp [List.countP_cons, hp, hq]
      omega
    · by_cases hq : q a <;> simp [List.countP_cons, hp, hq] <;> omega

theorem countP_split {α} (p q : α → Bool) (l : List α) :
    l.countP p = l.countP (fun a => p a && q a) + l.countP (fun a => p a && !q a) := by
  induction l with
  | nil => simp
  | cons a t ih =>
    by_cases hp : p a <;> by_cases hq : q a <;>
      simp [List.countP_cons, hp, hq] <;> omega

theorem countP_eq_len {α} (l : List α) : l.countP (fun _ => true) = l.length := by
  induction l with
  | nil => simp
  | cons a t ih => simp [List.countP_cons, ih]

/-- C2: the summary matrix of `compute_stats` is consistent: the total
column is the sum of the bonepile and fresh columns for all three metrics,
and `pass + fail = tested` in the total column. -/
theorem compute_summary_consistent (rows : List RawRow) :
    (compute_summary rows).total.tested
        = (compute_summary rows).bp.tested + (compute_summary rows).fresh.tested
    ∧ (compute_summary rows).total.pass
        = (compute_summary rows).bp.pass + (compute_summary rows).fresh.pass
    ∧ (compute_summary rows).total.fail
        = (compute_summary rows).bp.fail + (compute_summary rows).fresh.fail
    ∧ (compute_summary rows).total.pass + (compute_summary rows).total.fail
        = (compute_summary rows).total.tested := by
  unfold compute_summary
  set sns := firstKeys (rows.map (fun r => r.sn)) with hsns
  set isBp := fun sn => snIsBp (rowsOfSn rows sn) with hisBp
  set isPass := fun sn => snIsPass (rowsOfSn rows sn) with hisPass
  simp only
  have h1 : sns.countP isPass ≤ sns.length := countP_le_len ..
  have h2 : sns.countP isBp ≤ sns.length := countP_le_len ..
  have h3 : sns.countP (fun sn => isBp sn && isPass sn) ≤ sns.countP isPass :=
    countP_mono _ _ _ (by intro a h; simpa using (Bool.and_elim_right (by simpa using h)))
  have h4 : sns.countP (fun sn => isBp sn && isPass sn) ≤ sns.countP isBp :=
    countP_mono _ _ _ (by intro a h; simpa using (Bool.and_elim_left (by simpa using h)))
  have h5 : sns.countP isPass
      = sns.countP (fun sn => isPass sn && isBp sn)
        + sns.countP (fun sn => isPass sn && !isBp sn) :=
    countP_split isPass isBp sns
  have h5' : sns.countP (fun sn => isPass sn && isBp sn)
      = sns.countP (fun sn => isBp sn && isPass sn) := by
    apply List.countP_congr
    intro a _
    simp [Bool.and_comm]
  have h6 : sns.length = sns.countP isBp + sns.countP (fun sn => !isBp sn) := by
    have := countP_split (fun _ : String => true) isBp sns
    simpa [countP_eq_len] using this
  have h7 : sns.countP (fun sn => isPass sn && !isBp sn) ≤ sns.countP (fun sn => !isBp sn) :=
    countP_mono _ _ _ (by intro a h; simp at h ⊢; exact h.2)
  refine ⟨by omega, by omega, by omega, by omega⟩

/-! ### Latest part number per serial
(sources: `compute_stats` lines 926-938 and `compute_test_flow` lines 1044-1061) -/

/-- Python tuple comparison `(ca_ms, filename) < (ca_ms', filename')`
(strict lexicographic order on `Nat × String`). -/
def keyLt (a b : Nat × String) : Bool :=
  decide (a.1 < b.1) || (decide (a.1 = b.1) && strLt a.2.data b.2.data)

/-- The `best_key`/`best_pn` fold of `compute_test_flow` (lines 1047-1059):
strict lexicographic `>` against the best `(ca_ms, filename)` key so far,
starting from `(-1, "")` (modelled by `none`, which every key beats; the
Python `t["filename"] or ""` is the identity on strings). -/
def flowLatestAux : List RawRow → Option ((Nat × String) × String) → Option ((Nat × String) × String)
  | [], acc => acc
  | t :: rest, none =>
    flowLatestAux rest (some ((t.ca_ms, t.filename), pnOrUnknown t.part_number))
  | t :: rest, some (k, p) =>
    if keyLt k (t.ca_ms, t.filename)
    then flowLatestAux rest (some ((t.ca_ms, t.filename), pnOrUnknown t.part_number))
    else flowLatestAux rest (some (k, p))

/-- `sn_latest_part[sn]` as computed by `compute_test_flow` for one
serial's group of rows. -/
def flowLatestPart (tests : List RawRow) : String :=
  match flowLatestAux tests none with
  | some (_, p) => p
  | none => "Unknown"

/-- Keep the incumbent `(m', p')` only if its `utc_ms` strictly exceeds the
candidate `m`; on a tie the candidate (the EARLIER row) wins. -/
def betterUtc (m : Nat) (p : String) : Option (Nat × String) → Option (Nat × String)
  | none => some (m, p)
  | some (m', p') => if m < m' then some (m', p') else some (m, p)

/-- Keep the incumbent only if its `(ca_ms, filename)` key strictly exceeds
the candidate's; on a tie the candidate (the EARLIER row) wins. -/
def betterKey (k : Nat × String) (p : String) :
    Option ((Nat × String) × String) → Option ((Nat × String) × String)
  | none => some (k, p)
  | some (k', p') => if keyLt k k' then some (k', p') else some (k, p)

/-- Specification function: the `(utc_ms, part)` of the FIRST row (in input
order) whose `utc_ms` is maximal in the group. -/
def firstMaxUtc : List RawRow → Option (Nat × String)
  | [] => none
  | t :: rest => betterUtc t.utc_ms (pnOrUnknown t.part_number) (firstMaxUtc rest)

/-- Specification function: the key and part of the FIRST row (in input
order) whose `(ca_ms, filename)` key is lexicographically maximal. -/
def firstMaxCaFn : List RawRow → Option ((Nat × String) × String)
  | [] => none
  | t :: rest => betterKey (t.ca_ms, t.filename) (pnOrUnknown t.part_number) (firstMaxCaFn rest)

/-- Part number of the first row attaining the maximal `utc_ms`. -/
def firstMaxUtcPart (tests : List RawRow) : String :=
  match firstMaxUtc tests with
  | some (_, p) => p
  | none => "Unknown"

/-- Part number of the first row attaining the maximal `(ca_ms, filename)`. -/
def firstMaxCaFnPart (tests : List RawRow) : String :=
  match firstMaxCaFn tests with
  | some (_, p) => p
  | none => "Unknown"

theorem strLt_cons (a b : Char) (as bs : List Char) :
    strLt (a :: as) (b :: bs) = true
      ↔ (a.toNat < b.toNat ∨ (a.toNat = b.toNat ∧ strLt as bs = true)) := by
  simp only [strLt]
  split_ifs with h1 h2
  · simp [h1]
  · simp only [Bool.false_eq_true, false_iff]
    rintro (h | ⟨h, _⟩) <;> omega
  · constructor
    · intro h
      exact Or.inr ⟨by omega, h⟩
    · rintro (h | ⟨_, h⟩)
      · omega
      · exact h

theorem strLt_cons_false (a b : Char) (as bs : List Char) :
    strLt (a :: as) (b :: bs) = false
      ↔ (b.toNat < a.toNat ∨ (a.toNat = b.toNat ∧ strLt as bs = false)) := by
  simp only [strLt]
  split_ifs with h1 h2
  · simp only [Bool.true_eq_false, false_iff]
    rintro (h | ⟨h, _⟩) <;> omega
  · simp [h2]
  · constructor
    · intro h
      exact Or.inr ⟨by omega, h⟩
    · rintro (h | ⟨_, h⟩)
      · omega
      · exact h

theorem strLt_trans : ∀ a b c : List Char,
    strLt a b = true → strLt b c = true → strLt a c = true
  | [], [], _, h1, _ => by simp [strLt] at h1
  | [], _ :: _, [], _, h2 => by simp [strLt] at h2
  | [], _ :: _, _ :: _, _, _ => by simp [strLt]
  | _ :: _, [], _, h1, _ => by simp [strLt] at h1
  | _ :: _, _ :: _, [], _, h2 => by simp [strLt] at h2
  | a :: as, b :: bs, c :: cs, h1, h2 => by
    rw [strLt_cons] at h1 h2 ⊢
    rcases h1 with h1 | ⟨h1e, h1r⟩ <;> rcases h2 with h2 | ⟨h2e, h2r⟩
    · exact Or.inl (by omega)
    · exact Or.inl (by omega)
    · exact Or.inl (by omega)
    · exact Or.inr ⟨by omega, strLt_trans as bs cs h1r h2r⟩

theorem strLt_neg_trans : ∀ a b c : List Char,
    strLt a b = false → strLt b c = false → strLt a c = false
  | [], [], [], _, _ => by simp [strLt]
  | [], [], _ :: _, _, h2 => by simp [strLt] at h2
  | [], _ :: _, _, h1, _ => by simp [strLt] at h1
  | _ :: _, _, [], _, _ => by simp [strLt]
  | _ :: _, [], _ :: _, _, h2 => by simp [strLt] at h2
  | a :: as, b :: bs, c :: cs, h1, h2 => by
    rw [strLt_cons_false] at h1 h2 ⊢
    rcases h1 with h1 | ⟨h1e, h1r⟩ <;> rcases h2 with h2 | ⟨h2e, h2r⟩
    · exact Or.inl (by omega)
    · exact Or.inl (by omega)
    · exact Or.inl (by omega)
    · exact Or.inr ⟨by omega, strLt_neg_trans as bs cs h1r h2r⟩

theorem keyLt_trans {a b c : Nat × String} (h1 : keyLt a b = true) (h2 : keyLt b c = true) :
    keyLt a c = true := by
  simp only [keyLt, Bool.or_eq_true, Bool.and_eq_true, decide_eq_true_eq] at *
  rcases h1 with h1 | ⟨h1e, h1s⟩ <;> rcases h2 with h2 | ⟨h2e, h2s⟩
  · exact Or.inl (Nat.lt_trans h1 h2)
  · exact Or.inl (h2e ▸ h1)
  · exact Or.inl (h1e ▸ h2)
  · exact Or.inr ⟨h1e.trans h2e, strLt_trans _ _ _ h1s h2s⟩

theorem keyLt_neg_trans {a b c : Nat × String} (h1 : keyLt a b = false) (h2 : keyLt b c = false) :
    keyLt a c = false := by
  simp only [keyLt, Bool.or_eq_false_iff, Bool.and_eq_false_iff,
    decide_eq_false_iff_not] at *
  obtain ⟨h1n, h1s⟩ := h1
  obtain ⟨h2n, h2s⟩ := h2
  refine ⟨by omega, ?_⟩
  by_cases he : a.1 = c.1
  · right
    have hab : a.1 = b.1 := by omega
    have hbc : b.1 = c.1 := by omega
    have hs1 : strLt a.2.data b.2.data = false := by tauto
    have hs2 : strLt b.2.data c.2.data = false := by tauto
    exact strLt_neg_trans _ _ _ hs1 hs2
  · exact Or.inl he

/-- The `compute_stats` fold, seeded with a best-so-far, keeps the seed
unless a strictly larger `utc_ms` appears, i.e. computes `betterUtc` of the
seed and the list's first maximum. -/
theorem statsLatestAux_spec (tests : List RawRow) :
    ∀ m p, statsLatestAux tests (some (m, p)) = betterUtc m p (firstMaxUtc tests) := by
  induction tests with
  | nil => intro m p; rfl
  | cons t rest ih =>
    intro m p
    simp only [statsLatestAux]
    have hcons : firstMaxUtc (t :: rest)
        = betterUtc t.utc_ms (pnOrUnknown t.part_number) (firstMaxUtc rest) := rfl
    by_cases h1 : m < t.utc_ms
    · rw [if_pos h1, ih, hcons]
      rcases firstMaxUtc rest with _ | ⟨m', p'⟩
      · simp only [betterUtc]
        rw [if_pos h1]
      · simp only [betterUtc]
        by_cases h2 : t.utc_ms < m'
        · rw [if_pos h2]
          simp only [betterUtc]
          rw [if_pos (by omega : m < m')]
        · rw [if_neg h2]
          simp only [betterUtc]
          rw [if_pos h1]
    · rw [if_neg h1, ih, hcons]
      rcases firstMaxUtc rest with _ | ⟨m', p'⟩
      · simp only [betterUtc]
        rw [if_neg h1]
      · simp only [betterUtc]
        by_cases h2 : t.utc_ms < m'
        · rw [if_pos h2]
        · rw [if_neg h2]
          simp only [betterUtc]
          rw [if_neg h1, if_neg (by omega : ¬ m < m')]

/-- The `compute_test_flow` fold, seeded with a best-so-far, keeps the seed
unless a strictly larger `(ca_ms, filename)` key appears. -/
theorem flowLatestAux_spec (tests : List RawRow) :
    ∀ k p, flowLatestAux tests (some (k, p)) = betterKey k p (firstMaxCaFn tests) := by
  induction tests with
  | nil => intro k p; rfl
  | cons t rest ih =>
    intro k p
    simp only [flowLatestAux]
    have hcons : firstMaxCaFn (t :: rest)
        = betterKey (t.ca_ms, t.filename) (pnOrUnknown t.part_number) (firstMaxCaFn rest) := rfl
    by_cases h1 : keyLt k (t.ca_ms, t.filename) = true
    · rw [if_pos h1, ih, hcons]
      rcases firstMaxCaFn rest with _ | ⟨k', p'⟩
      · simp only [betterKey]
        rw [if_pos h1]
      · simp only [betterKey]
        by_cases h2 : keyLt (t.ca_ms, t.filename) k' = true
        · rw [if_pos h2]
          simp only [betterKey]
          rw [if_pos (keyLt_trans h1 h2)]
        · rw [if_neg h2]
          simp only [betterKey]
          rw [if_pos h1]
    · have h1f : keyLt k (t.ca_ms, t.filename) = false := by simpa using h1
      rw [if_neg h1, ih, hcons]
      rcases firstMaxCaFn rest with _ | ⟨k', p'⟩
      · simp only [betterKey]
        rw [if_neg h1]
      · simp only [betterKey]
        by_cases h2 : keyLt (t.ca_ms, t.filename) k' = true
        · rw [if_pos h2]
        · have h2f : keyLt (t.ca_ms, t.filename) k' = false := by simpa using h2
          rw [if_neg h2]
          simp only [betterKey]
          rw [if_neg h1, if_neg (by simp [keyLt_neg_trans h1f h2f])]

/-- C3 counterexample: two rows of one serial with equal `utc_ms` (and
`ca_ms`) but different filenames and part numbers, listed in the query's
`ORDER BY sn, utc_ms, filename` order.  `compute_stats` assigns the part
number of the FIRST row (its fold uses a strict `>` on `utc_ms` only),
while `compute_test_flow` assigns the part number of the row with the
larger filename — so no single tie-breaking rule covers both. -/
def c3row (fn pn : String) : RawRow :=
  { utc_ms := 100, ca_ms := 100, ca_date := "2026-01-07", ca_hour := 0,
    ca_week := "2026-01-04~2026-01-10", ca_month := "2026-01", filename := fn,
    folder_path := "p", sn := "1830126000087", status := "P", station := "FLA",
    part_number := pn, is_bonepile := some 0, pb_id := none }

/-- The concrete one-serial group used to refute C3. -/
def c3rows : List RawRow := [c3row "a.zip" "PN-A", c3row "b.zip" "PN-B"]

/-- C3 is false as stated: on `c3rows`, the summary/SKU aggregation
(`compute_stats`) and the station-flow aggregation (`compute_test_flow`)
assign DIFFERENT latest part numbers to the same serial, so the latest
part number is not uniformly "the row with the largest `utc_ms`, ties
broken by filename". -/
theorem latest_part_not_uniform :
    statsLatestPart c3rows = "PN-A" ∧ flowLatestPart c3rows = "PN-B" := by
  constructor <;> rfl

/-- C3 amended: `compute_stats` (summary matrix and SKU table) assigns each
serial the part number of the FIRST row, in the query's input order, whose
`utc_ms` is maximal (its fold performs no filename tie-break), while
`compute_test_flow` (station-flow SKU grouping) assigns the part number of
the first row whose `(ca_ms, filename)` key is lexicographically maximal —
i.e. it breaks `ca_ms` ties toward the largest filename. -/
theorem latest_part_characterization (tests : List RawRow) :
    statsLatestPart tests = firstMaxUtcPart tests
    ∧ flowLatestPart tests = firstMaxCaFnPart tests := by
  constructor
  · cases tests with
    | nil => rfl
    | cons t rest =>
      unfold statsLatestPart firstMaxUtcPart
      have h0 : statsLatestAux (t :: rest) none
          = statsLatestAux rest (some (t.utc_ms, pnOrUnknown t.part_number)) := rfl
      rw [h0, statsLatestAux_spec]
      rfl
  · cases tests with
    | nil => rfl
    | cons t rest =>
      unfold flowLatestPart firstMaxCaFnPart
      have h0 : flowLatestAux (t :: rest) none
          = flowLatestAux rest (some ((t.ca_ms, t.filename), pnOrUnknown t.part_number)) := rfl
      rw [h0, flowLatestAux_spec]
      rfl

/-! ### Cache-store inserts (source: `insert_entries`, lines 595-646) -/

/-- Primary key of `raw_entries`: `(utc_ms, filename)`. -/
def rowKey (r : RawRow) : Nat × String := (r.utc_ms, r.filename)

/-- Whether the table already holds a row with the given primary key. -/
def hasKey (table : List RawRow) (k : Nat × String) : Bool :=
  table.any (fun r => rowKey r = k)

/-- `INSERT OR IGNORE` of one row: unchanged when a row with the same
primary key exists (and the ignored conflict does not count towards
`total_changes`), otherwise append and count 1. -/
def insertOrIgnore (table : List RawRow) (e : RawRow) : List RawRow × Nat :=
  if hasKey table (rowKey e) then (table, 0) else (table ++ [e], 1)

/-- Source `insert_entries`: `executemany` of `INSERT OR IGNORE` over the
batch in order, returning the `total_changes` delta (the number of rows
actually inserted); an empty batch returns 0 without touching the table. -/
def insert_entries : List RawRow → List RawRow → List RawRow × Nat
  | table, [] => (table, 0)
  | table, e :: rest =>
    let step := insertOrIgnore table e
    let next := insert_entries step.1 rest
    (next.1, step.2 + next.2)

theorem hasKey_insertOrIgnore_mono (table : List RawRow) (e : RawRow) (k : Nat × String)
    (h : hasKey table k = true) : hasKey (insertOrIgnore table e).1 k = true := by
  unfold insertOrIgnore
  split_ifs
  · exact h
  · simp only [hasKey, List.any_append, Bool.or_eq_true]
    exact Or.inl h

theorem hasKey_insertOrIgnore_self (table : List RawRow) (e : RawRow) :
    hasKey (insertOrIgnore table e).1 (rowKey e) = true := by
  unfold insertOrIgnore
  split_ifs with h
  · exact h
  · simp [hasKey]

theorem hasKey_insert_entries_mono (batch : List RawRow) :
    ∀ table k, hasKey table k = true → hasKey (insert_entries table batch).1 k = true := by
  induction batch with
  | nil => intro table k h; exact h
  | cons e rest ih =>
    intro table k h
    exact ih _ _ (hasKey_insertOrIgnore_mono table e k h)

theorem hasKey_insert_entries_of_mem (batch : List RawRow) :
    ∀ table e, e ∈ batch → hasKey (insert_entries table batch).1 (rowKey e) = true := by
  induction batch with
  | nil => intro _ _ h; exact absurd h (List.not_mem_nil _)
  | cons b rest ih =>
    intro table e h
    rcases List.mem_cons.mp h with h | h
    · subst h
      exact hasKey_insert_entries_mono rest _ _ (hasKey_insertOrIgnore_self table e)
    · exact ih _ _ h

theorem insert_entries_noop (batch : List RawRow) :
    ∀ table, (∀ e ∈ batch, hasKey table (rowKey e) = true) →
      insert_entries table batch = (table, 0) := by
  induction batch with
  | nil => intro table _; rfl
  | cons b rest ih =>
    intro table h
    have hb : hasKey table (rowKey b) = true := h b (List.mem_cons_self ..)
    have hstep : insertOrIgnore table b = (table, 0) := by
      unfold insertOrIgnore
      rw [if_pos hb]
    simp only [insert_entries, hstep]
    rw [ih table (fun e he => h e (List.mem_cons_of_mem _ he))]
    rfl

/-- C4: inserting a batch twice is the same as inserting it once — the
second `insert_entries` call leaves the table unchanged and reports zero
net new rows, because every key of the batch is already present after the
first call (`INSERT OR IGNORE` on the `(utc_ms, filename)` primary key). -/
theorem insert_entries_idempotent (table batch : List RawRow) :
    insert_entries (insert_entries table batch).1 batch
      = ((insert_entries table batch).1, 0) :=
  insert_entries_noop batch _ (fun e he => hasKey_insert_entries_of_mem batch table e he)

/-! ### Cache-store open and timestamp-mode invalidation
(source: `init_db`, lines 354-460) -/

/-- Source constant `TIMESTAMP_MODE` (the code-level interpretation
version of the filename timestamps). -/
def TIMESTAMP_MODE : String := "ca_local_suffix_v3"

/-- The parts of the SQLite file that `init_db` reads or writes: the
`meta.timestamp_mode` row (absent on a fresh file) and the `raw_entries`
table (`none` = table absent).  `bonepile_entries` and the indexes are only
created, never modified, by `init_db`, and are omitted. -/
structure DBState where
  timestamp_mode : Option String
  raw_entries : Option (List RawRow)
deriving DecidableEq, Repr

/-- Source `raw_has_rows`: the table exists and `SELECT 1 ... LIMIT 1`
returns a row. -/
def raw_has_rows (db : DBState) : Bool :=
  match db.raw_entries with
  | some (_ :: _) => true
  | _ => false

/-- Source `needs_reset` condition (line 388). -/
def needs_reset (db : DBState) : Bool :=
  match db.timestamp_mode with
  | none => raw_has_rows db
  | some m => m ≠ TIMESTAMP_MODE

/-- Source `init_db`: on reset, `DROP TABLE raw_entries`, write the current
mode and reset the scan-state sidecar (`RawState().save()`, recorded in the
returned flag); when the mode is merely absent, write it; afterwards
`CREATE TABLE IF NOT EXISTS raw_entries` (so a dropped or missing table
becomes the empty table). -/
def init_db (db : DBState) : DBState × Bool :=
  if needs_reset db then
    ({ timestamp_mode := some TIMESTAMP_MODE, raw_entries := some [] }, true)
  else if db.timestamp_mode = none then
    ({ timestamp_mode := some TIMESTAMP_MODE,
       raw_entries := some (db.raw_entries.getD []) }, false)
  else
    ({ timestamp_mode := db.timestamp_mode,
       raw_entries := some (db.raw_entries.getD []) }, false)

/-- C5: opening the store with a stored `timestamp_mode` different from
`TIMESTAMP_MODE`, or with no stored mode but a non-empty `raw_entries`,
drops `raw_entries` (count 0 afterwards) and resets the scan state; with no
stored mode and an empty `raw_entries`, the current mode is written and no
data is dropped. -/
theorem init_db_timestamp_mode (db : DBState) :
    (∀ m, db.timestamp_mode = some m → m ≠ TIMESTAMP_MODE →
      (init_db db).1.raw_entries = some [] ∧ (init_db db).2 = true)
    ∧ (db.timestamp_mode = none → raw_has_rows db = true →
      (init_db db).1.raw_entries = some [] ∧ (init_db db).2 = true)
    ∧ (db.timestamp_mode = none → raw_has_rows db = false →
      (init_db db).1 = { timestamp_mode := some TIMESTAMP_MODE,
                         raw_entries := some (db.raw_entries.getD []) }
        ∧ (init_db db).2 = false) := by
  refine ⟨?_, ?_, ?_⟩
  · intro m hm hne
    have hr : needs_reset db = true := by
      unfold needs_reset
      rw [hm]
      simpa using hne
    unfold init_db
    rw [if_pos hr]
    exact ⟨rfl, rfl⟩
  · intro hm hrows
    have hr : needs_reset db = true := by
      unfold needs_reset
      rw [hm]
      exact hrows
    unfold init_db
    rw [if_pos hr]
    exact ⟨rfl, rfl⟩
  · intro hm hrows
    have hr : needs_reset db = false := by
      unfold needs_reset
      rw [hm]
      exact hrows
    unfold init_db
    rw [if_neg (by simp [hr]), if_pos hm]
    exact ⟨rfl, rfl⟩

/-- A sample raw row used by concrete witnesses. -/
def sampleRow : RawRow :=
  { utc_ms := 1767200000000, ca_ms := 1767200000000, ca_date := "2025-12-31", ca_hour := 9,
    ca_week := "2025-12-28~2026-01-03", ca_month := "2025-12",
    filename := "IGSJ_NA_675-24109-0002-TS1_1830126000087_P_FLA_20251231T091500Z.zip",
    folder_path := "p", sn := "1830126000087", status := "P", station := "FLA",
    part_number := "675-24109-0002-TS1", is_bonepile := some 0, pb_id := none }

/-- C5 witness: concrete stores exercising all three branches of
`init_db_timestamp_mode`. -/
theorem init_db_timestamp_mode_witness :
    ((init_db ⟨some "ca_local_suffix_v2", some [sampleRow]⟩).1.raw_entries = some []
      ∧ (init_db ⟨some "ca_local_suffix_v2", some [sampleRow]⟩).2 = true)
    ∧ ((init_db ⟨none, some [sampleRow]⟩).1.raw_entries = some []
      ∧ (init_db ⟨none, some [sampleRow]⟩).2 = true)
    ∧ ((init_db ⟨none, some []⟩).1
        = { timestamp_mode := some TIMESTAMP_MODE, raw_entries := some [] }
      ∧ (init_db ⟨none, some []⟩).2 = false) :=
  ⟨(init_db_timestamp_mode _).1 "ca_local_suffix_v2" rfl (by decide),
   (init_db_timestamp_mode _).2.1 rfl (by decide),
   (init_db_timestamp_mode _).2.2 rfl (by decide)⟩

/-! ### Retention cleanup (source: `cleanup_retention`, lines 860-901) -/

/-- Source constant `RETENTION_DAYS`. -/
def RETENTION_DAYS : Nat := 90

/-- `cutoff_ms = utc_ms(now_ca - timedelta(days=RETENTION_DAYS))`:
subtracting a timedelta from an aware datetime shifts the epoch instant by
exactly `90 · 86400` seconds, so the cutoff is `now_ms - 7776000000`
(computed in `Int` since it may go negative for small `now_ms`). -/
def retention_cutoff_ms (now_ms : Int) : Int := now_ms - RETENTION_DAYS * 86400000

/-- Source `DELETE FROM raw_entries WHERE ca_ms < cutoff_ms`. -/
def cleanup_retention (now_ms : Int) (table : List RawRow) : List RawRow :=
  table.filter (fun r => ¬ ((r.ca_ms : Int) < retention_cutoff_ms now_ms))

/-- C6: after retention cleanup at time `now_ms`, no surviving row has
`ca_ms` below `now_ms - RETENTION_DAYS`, and every row of the original
table at or after the cutoff is still present. -/
theorem cleanup_retention_correct (now_ms : Int) (table : List RawRow) :
    (∀ r ∈ cleanup_retention now_ms table, retention_cutoff_ms now_ms ≤ (r.ca_ms : Int))
    ∧ (∀ r ∈ table, retention_cutoff_ms now_ms ≤ (r.ca_ms : Int) →
        r ∈ cleanup_retention now_ms table) := by
  constructor
  · intro r hr
    have := List.of_mem_filter hr
    simpa using this
  · intro r hr hge
    refine List.mem_filter.mpr ⟨hr, ?_⟩
    simpa using hge

/-- C6 witness: a concrete table with one row just past the horizon (it is
deleted) and `sampleRow` inside the horizon (it survives). -/
theorem cleanup_retention_correct_witness :
    retention_cutoff_ms 1767200000000
        ≤ ((sampleRow.ca_ms : Int))
      ∧ sampleRow ∈ cleanup_retention 1767200000000
          [{ sampleRow with ca_ms := 0, utc_ms := 0 }, sampleRow] :=
  ⟨(cleanup_retention_correct 1767200000000
      [{ sampleRow with ca_ms := 0, utc_ms := 0 }, sampleRow]).1 sampleRow (by decide),
   (cleanup_retention_correct 1767200000000
      [{ sampleRow with ca_ms := 0, utc_ms := 0 }, sampleRow]).2 sampleRow (by decide)
      (by decide)⟩

/-! ### Filename parser
(source: `extract_part_number_from_filename` lines 217-240 and
`parse_test_filename` lines 243-271)

The regular expressions involved (`\d+`, `\d{10,}`, `[A-Z0-9]+` runs, all
followed by a literal the run cannot contain) are deterministic: greedy
matching with backtracking always reduces to "maximal run, then literal
check", because any shorter run would leave the next character inside the
run's character class, failing the literal.  They are embedded as
`takeWhile` runs plus literal checks, scanned left to right for
`re.search` semantics.  `\d` is modelled as ASCII digits and `[A-Z0-9]`
as ASCII upper-case letters and digits. -/

/-- Python `filename.replace(".zip", "")` (all occurrences, left to right,
non-overlapping). -/
def replaceZip : List Char → List Char
  | '.' :: 'z' :: 'i' :: 'p' :: rest => replaceZip rest
  | c :: rest => c :: replaceZip rest
  | [] => []

/-- The regex class `[A-Z0-9]`. -/
def isUpperDigit (c : Char) : Bool :=
  (65 ≤ c.toNat && c.toNat ≤ 90) || c.isDigit

/-- Leftmost-match scan: try the position matcher `f` at every suffix,
left to right (the semantics of `re.search`). -/
def scanFirst {α} (f : List Char → Option α) : List Char → Option α
  | [] => f []
  | c :: rest =>
    match f (c :: rest) with
    | some x => some x
    | none => scanFirst f rest

/-- Match `\d+-\d+-\d+` at the head; returns the length consumed. -/
def matchTriple (l : List Char) : Option Nat :=
  let r1 := (l.takeWhile Char.isDigit).length
  if r1 = 0 then none
  else
    match l.drop r1 with
    | '-' :: l2 =>
      let r2 := (l2.takeWhile Char.isDigit).length
      if r2 = 0 then none
      else
        match l2.drop r2 with
        | '-' :: l3 =>
          let r3 := (l3.takeWhile Char.isDigit).length
          if r3 = 0 then none else some (r1 + 1 + r2 + 1 + r3)
        | _ => none
    | _ => none

/-- Match `\d+-\d+-\d+-TS\d+` at the head; returns the length consumed.
(The third digit run of `matchTriple` is maximal, so the continuation must
be the literal `-TS` followed by digits.) -/
def matchTripleTS (l : List Char) : Option Nat :=
  match matchTriple l with
  | none => none
  | some n =>
    match l.drop n with
    | '-' :: 'T' :: 'S' :: l4 =>
      let r4 := (l4.takeWhile Char.isDigit).length
      if r4 = 0 then none else some (n + 3 + r4)
    | _ => none

/-- Match `PB-\d+_` at the head; returns the length consumed. -/
def matchPBPrefix (l : List Char) : Option Nat :=
  match l with
  | 'P' :: 'B' :: '-' :: l2 =>
    let r := (l2.takeWhile Char.isDigit).length
    if r = 0 then none
    else
      match l2.drop r with
      | '_' :: _ => some (3 + r + 1)
      | _ => none
  | _ => none

/-- Source `extract_part_number_from_filename`: strip `.zip`, then try, in
order, `PB-\d+_(\d+-\d+-\d+-TS\d+)`, `PB-\d+_(\d+-\d+-\d+)`,
`(\d+-\d+-\d+-TS\d+)`, `(\d+-\d+-\d+)` via `re.search`, returning the
captured group; `"Unknown"` when nothing matches. -/
def extract_part_number_from_filename (filename : String) : String :=
  let name := replaceZip filename.data
  let pb := fun (g : List Char → Option Nat) (l : List Char) =>
    match matchPBPrefix l with
    | some n => (g (l.drop n)).map (fun m => (l.drop n).take m)
    | none => none
  match scanFirst (pb matchTripleTS) name with
  | some g => String.mk g
  | none =>
    match scanFirst (pb matchTriple) name with
    | some g => String.mk g
    | none =>
      match scanFirst (fun l => (matchTripleTS l).map (fun m => l.take m)) name with
      | some g => String.mk g
      | none =>
        match scanFirst (fun l => (matchTriple l).map (fun m => l.take m)) name with
        | some g => String.mk g
        | none => "Unknown"

/-- Match `_([FP])_([A-Z0-9]+)_` at the head; returns the status character
and the station run. -/
def matchFPStation (l : List Char) : Option (Char × List Char) :=
  match l with
  | '_' :: c :: '_' :: rest =>
    if c = 'F' ∨ c = 'P' then
      let st := rest.takeWhile isUpperDigit
      if st.length = 0 then none
      else
        match rest.drop st.length with
        | '_' :: _ => some (c, st)
        | _ => none
    else none
  | _ => none

/-- Match `_(\d{10,})_([FP])_([A-Z0-9]+)_` at the head (pattern 1 of
`parse_test_filename`). -/
def matchP1 : List Char → Option (List Char × Char × List Char)
  | [] => none
  | c :: l2 =>
    if c = '_' then
      let sn := l2.takeWhile Char.isDigit
      if sn.length < 10 then none
      else (matchFPStation (l2.drop sn.length)).map (fun p => (sn, p.1, p.2))
    else none

/-- Does the list start with a 13-digit substring whose first two
characters are `18` (the regex `18\d{11}`)? -/
def sn13At (l : List Char) : Bool :=
  let ds := l.take 13
  decide (ds.length = 13) && ds.all Char.isDigit && decide (ds.take 2 = ['1', '8'])

/-- Find the leftmost `18\d{11}` match; returns the 13 characters and the
remainder of the string after them (pattern 2 of `parse_test_filename`:
`name[name.find(sn) + len(sn):]`). -/
def searchSN : List Char → Option (List Char × List Char)
  | [] => none
  | c :: rest =>
    if sn13At (c :: rest) then some ((c :: rest).take 13, (c :: rest).drop 13)
    else searchSN rest

/-- Pattern 2 of `parse_test_filename`: locate the first `18\d{11}`
substring, then search `_<F|P>_<station>_` in the remainder after it. -/
def parse_pattern2 (name : List Char) (part_number : String) :
    Option (String × String × String × String) :=
  match searchSN name with
  | some (sn, after) =>
    match scanFirst matchFPStation after with
    | some (st, station) =>
      some (String.mk sn, String.mk [st], String.mk station, part_number)
    | none => none
  | none => none

/-- Source `parse_test_filename`: strip `.zip`, extract the part number,
then try pattern 1 (`_<sn ≥ 10 digits>_<F|P>_<station>_`, accepted only if
the serial is 13 digits starting `18`), and fall back to pattern 2 (first
`18\d{11}` substring followed somewhere after by `_<F|P>_<station>_`). -/
def parse_test_filename (filename : String) : Option (String × String × String × String) :=
  match scanFirst matchP1 (replaceZip filename.data) with
  | some (sn, st, station) =>
    if sn.take 2 = ['1', '8'] ∧ sn.length = 13 then
      some (String.mk sn, String.mk [st], String.mk station,
        extract_part_number_from_filename filename)
    else
      parse_pattern2 (replaceZip filename.data) (extract_part_number_from_filename filename)
  | none =>
    parse_pattern2 (replaceZip filename.data) (extract_part_number_from_filename filename)

theorem all_takeWhile (p : Char → Bool) (l : List Char) :
    (l.takeWhile p).all p = true := by
  induction l with
  | nil => rfl
  | cons c rest ih =>
    by_cases h : p c <;> simp [List.takeWhile_cons, h, ih]

/-- Any result of `scanFirst f` satisfies whatever every result of `f`
satisfies. -/
theorem scanFirst_prop {α} (f : List Char → Option α) (P : α → Prop)
    (hf : ∀ l x, f l = some x → P x) :
    ∀ l x, scanFirst f l = some x → P x := by
  intro l
  induction l with
  | nil => intro x h; exact hf [] x h
  | cons c rest ih =>
    intro x h
    rw [scanFirst] at h
    split at h
    · cases h
      exact hf (c :: rest) x (by assumption)
    · exact ih x h

/-- A pattern-1 match returns a serial that is a digit run. -/
theorem matchP1_digits (l : List Char) (sn : List Char) (c : Char) (st : List Char)
    (h : matchP1 l = some (sn, c, st)) : sn.all Char.isDigit = true := by
  cases l with
  | nil => simp [matchP1] at h
  | cons a l2 =>
    simp only [matchP1] at h
    split_ifs at h
    rcases Option.map_eq_some'.mp h with ⟨⟨c', st'⟩, _, hp⟩
    have hsn : sn = l2.takeWhile Char.isDigit := (congrArg (·.1) hp).symm
    rw [hsn]
    exact all_takeWhile ..

/-- A `searchSN` result is 13 characters, starts `18`, and is all digits. -/
theorem searchSN_valid : ∀ (l sn after : List Char),
    searchSN l = some (sn, after) →
    sn.length = 13 ∧ sn.take 2 = ['1', '8'] ∧ sn.all Char.isDigit = true := by
  intro l
  induction l with
  | nil => intro sn after h; simp [searchSN] at h
  | cons c rest ih =>
    intro sn after h
    rw [searchSN] at h
    split_ifs at h with hat
    · cases h
      simp only [sn13At, Bool.and_eq_true, decide_eq_true_eq] at hat
      exact ⟨hat.1.1, hat.2, hat.1.2⟩
    · exact ih sn after h

/-- Any successful pattern-2 parse returns a 13-digit `18`-prefixed serial. -/
theorem parse_pattern2_sn_valid (name : List Char) (part_number sn st station pn : String)
    (h : parse_pattern2 name part_number = some (sn, st, station, pn)) :
    sn.length = 13 ∧ sn.data.take 2 = ['1', '8'] ∧ sn.data.all Char.isDigit = true := by
  unfold parse_pattern2 at h
  split at h
  next snl after hsn =>
    split at h
    next stc stationl _ =>
      have hv := searchSN_valid name snl after hsn
      cases h
      exact hv
    next => exact absurd h (by simp)
  next => exact absurd h (by simp)

/-- C7: whenever `parse_test_filename` returns a result, the returned
serial is exactly 13 digits and starts with `18` — pattern 1 accepts only
such serials, and pattern 2 matches them by construction; any parse
failure yields `none`. -/
theorem parse_test_filename_sn_valid (fn sn st station pn : String)
    (h : parse_test_filename fn = some (sn, st, station, pn)) :
    sn.length = 13 ∧ sn.data.take 2 = ['1', '8'] ∧ sn.data.all Char.isDigit = true := by
  unfold parse_test_filename at h
  split at h
  next snl stc stationl hscan =>
    split_ifs at h with hguard
    · cases h
      have hdig : snl.all Char.isDigit = true :=
        scanFirst_prop matchP1 (fun r => r.1.all Char.isDigit = true)
          (fun l x hx => by
            obtain ⟨a, b, c⟩ := x
            exact matchP1_digits l a b c hx)
          _ _ hscan
      exact ⟨hguard.2, hguard.1, hdig⟩
    · exact parse_pattern2_sn_valid _ _ _ _ _ _ h
  next => exact parse_pattern2_sn_valid _ _ _ _ _ _ h

/-- C7 witness: a concrete production-shaped filename parses to a valid
serial (and the theorem's hypothesis is dischargeable). -/
theorem parse_test_filename_sn_valid_witness :
    ("1830126000087" : String).length = 13
      ∧ ("1830126000087" : String).data.take 2 = ['1', '8']
      ∧ ("1830126000087" : String).data.all Char.isDigit = true :=
  parse_test_filename_sn_valid
    "IGSJ_NA_675-24109-0002-TS1_1830126000087_P_FLA_20260107T163248Z.zip"
    "1830126000087" "P" "FLA" "675-24109-0002-TS1" (by decide)

/-! ### Query-endpoint input validation
(sources: `_parse_ca_input_datetime` lines 133-157 and `api_query`
lines 1995-2017)

Datetimes are modelled as California wall-clock instants linearized to
seconds (Julian-day number × 86400 + seconds of day).  `strptime` is
embedded following CPython's `TimeRE` field patterns: `%Y` is exactly four
digits; `%m`, `%d`, `%H`, `%M`, `%S` match a valid two-digit form first and
fall back to one digit, with the regex's backtracking captured by trying
the two-digit continuation before the one-digit one; the `datetime`
constructor's range checks (month lengths, leap years, seconds ≤ 59,
year ≥ 1) make the parse fail exactly where Python's `except` returns
`None`. -/

/-- Does the (stripped) string end with `\d:\d\d:\d\d` (the format
selector regex of `_parse_ca_input_datetime`)? -/
def endsWithSecPattern (l : List Char) : Bool :=
  match l.reverse with
  | s2 :: s1 :: c1 :: m2 :: m1 :: c2 :: h1 :: _ =>
    s2.isDigit && s1.isDigit && decide (c1 = ':') && m2.isDigit && m1.isDigit
      && decide (c2 = ':') && h1.isDigit
  | _ => false

/-- Parse exactly four digits (`%Y`). -/
def parseYear {α} (l : List Char) (k : Nat → List Char → Option α) : Option α :=
  match l with
  | a :: b :: c :: d :: rest =>
    if a.isDigit && b.isDigit && c.isDigit && d.isDigit then
      k ((((a.toNat - 48) * 10 + (b.toNat - 48)) * 10 + (c.toNat - 48)) * 10 + (d.toNat - 48))
        rest
    else none
  | _ => none

/-- A literal whitespace in a `strptime` format matches a whitespace RUN
(CPython compiles format whitespace to `\\s+`). -/
def expectSpaces {α} (l : List Char) (k : List Char → Option α) : Option α :=
  let ws := l.takeWhile Char.isWhitespace
  if ws.length = 0 then none else k (l.drop ws.length)

/-- Expect a literal character. -/
def expectChar {α} (c : Char) (l : List Char) (k : List Char → Option α) : Option α :=
  match l with
  | x :: rest => if x = c then k rest else none
  | _ => none

/-- Parse a 1-2 digit field: try the two-digit form (validated by
`valid2`) with its continuation first, then fall back to one digit
(validated by `valid1`) — the backtracking order of the regex
alternations in CPython's `TimeRE`. -/
def parseField {α} (valid2 valid1 : Nat → Bool) (l : List Char)
    (k : Nat → List Char → Option α) : Option α :=
  let two : Option α :=
    match l with
    | a :: b :: rest =>
      if a.isDigit && b.isDigit then
        let v := (a.toNat - 48) * 10 + (b.toNat - 48)
        if valid2 v then k v rest else none
      else none
    | _ => none
  match two with
  | some x => some x
  | none =>
    match l with
    | a :: rest =>
      if a.isDigit then
        let v := a.toNat - 48
        if valid1 v then k v rest else none
      else none
    | _ => none

/-- Gregorian leap year (`datetime`'s calendar). -/
def isLeap (y : Nat) : Bool :=
  (y % 4 = 0 && y % 100 ≠ 0) || y % 400 = 0

/-- Days in a month (`datetime`'s validation). -/
def daysInMonth (y mo : Nat) : Nat :=
  if mo = 2 then (if isLeap y then 29 else 28)
  else if mo = 4 ∨ mo = 6 ∨ mo = 9 ∨ mo = 11 then 30
  else 31

/-- Julian-day-number style linearization of a Gregorian date (strictly
monotone in the calendar order; total for `y ≥ 1`). -/
def daysFromCivil (y mo dy : Nat) : Nat :=
  let a := (14 - mo) / 12
  let y' := y + 4800 - a
  let m' := mo + 12 * a - 3
  dy + (153 * m' + 2) / 5 + 365 * y' + y' / 4 - y' / 100 + y' / 400 - 32045

/-- A California wall-clock instant in seconds. -/
def caSeconds (y mo dy hh mi ss : Nat) : Nat :=
  daysFromCivil y mo dy * 86400 + hh * 3600 + mi * 60 + ss

/-- `datetime(y, mo, dy, hh, mi, ss)` constructor validation (the parts
the field regexes do not already guarantee; hour and minute ranges are
enforced by the field patterns themselves). -/
def validDateTime (y mo dy : Nat) (_hh _mi : Nat) (ss : Nat) : Bool :=
  decide (1 ≤ y) && decide (dy ≤ daysInMonth y mo) && decide (ss ≤ 59)

/-- `datetime.strptime(s, "%Y-%m-%d %H:%M")` (full match). -/
def strptimeYmdHM (l : List Char) : Option (Nat × Nat × Nat × Nat × Nat) :=
  parseYear l (fun y l =>
  expectChar '-' l (fun l =>
  parseField (fun v => decide (1 ≤ v) && decide (v ≤ 12)) (fun v => decide (1 ≤ v)) l (fun mo l =>
  expectChar '-' l (fun l =>
  parseField (fun v => decide (1 ≤ v) && decide (v ≤ 31)) (fun v => decide (1 ≤ v)) l (fun dy l =>
  expectSpaces l (fun l =>
  parseField (fun v => decide (v ≤ 23)) (fun _ => true) l (fun hh l =>
  expectChar ':' l (fun l =>
  parseField (fun v => decide (v ≤ 59)) (fun _ => true) l (fun mi l =>
    if l.isEmpty ∧ validDateTime y mo dy hh mi 0 then some (y, mo, dy, hh, mi)
    else none)))))))))

/-- `datetime.strptime(s, "%Y-%m-%d %H:%M:%S")` (full match; `%S` matches
up to 61 but the constructor rejects 60 and 61). -/
def strptimeYmdHMS (l : List Char) : Option (Nat × Nat × Nat × Nat × Nat × Nat) :=
  parseYear l (fun y l =>
  expectChar '-' l (fun l =>
  parseField (fun v => decide (1 ≤ v) && decide (v ≤ 12)) (fun v => decide (1 ≤ v)) l (fun mo l =>
  expectChar '-' l (fun l =>
  parseField (fun v => decide (1 ≤ v) && decide (v ≤ 31)) (fun v => decide (1 ≤ v)) l (fun dy l =>
  expectSpaces l (fun l =>
  parseField (fun v => decide (v ≤ 23)) (fun _ => true) l (fun hh l =>
  expectChar ':' l (fun l =>
  parseField (fun v => decide (v ≤ 59)) (fun _ => true) l (fun mi l =>
  expectChar ':' l (fun l =>
  parseField (fun v => decide (v ≤ 61)) (fun _ => true) l (fun ss l =>
    if l.isEmpty ∧ validDateTime y mo dy hh mi ss then some (y, mo, dy, hh, mi, ss)
    else none)))))))))))

/-- Source `_parse_ca_input_datetime`: reject falsy input, strip, pick the
format by the `\d:\d\d:\d\d$` suffix test, parse, and for minute-precision
END inputs add 59 seconds (inclusive minute). -/
def parse_ca_input_datetime (s : String) (is_end : Bool) : Option Nat :=
  if s = "" then none
  else
    let l := stripChars s.data
    if endsWithSecPattern l then
      (strptimeYmdHMS l).map (fun r => caSeconds r.1 r.2.1 r.2.2.1 r.2.2.2.1 r.2.2.2.2.1 r.2.2.2.2.2)
    else
      (strptimeYmdHM l).map (fun r =>
        caSeconds r.1 r.2.1 r.2.2.1 r.2.2.2.1 r.2.2.2.2 0 + (if is_end then 59 else 0))

/-- Source `if end_ca > now_ca: end_ca = now_ca` (the clamp). -/
def clampEnd (end_ca now : Nat) : Nat := if now < end_ca then now else end_ca

theorem clampEnd_eq_min (end_ca now : Nat) : clampEnd end_ca now = min end_ca now := by
  unfold clampEnd
  split_ifs <;> omega

/-- The validation prefix of `api_query` (lines 1997-2017): missing
datetimes, format errors, future start, and non-positive windows reject
with an error message; an end beyond `now` is clamped to `now`.  The
aggregation parameter does not participate in validation and the accepted
case continues into the (pure) aggregation reads. -/
def api_query_validate (start_dt end_dt : Option String) (now : Nat) :
    Except String (Nat × Nat) :=
  if (start_dt.getD "") = "" ∨ (end_dt.getD "") = "" then
    Except.error "start_datetime and end_datetime required"
  else
    match parse_ca_input_datetime (start_dt.getD "") false,
          parse_ca_input_datetime (end_dt.getD "") true with
    | some start_ca, some end_ca =>
      if now < start_ca then Except.error "start is in the future"
      else if clampEnd end_ca now ≤ start_ca then Except.error "end must be after start"
      else Except.ok (start_ca, clampEnd end_ca now)
    | _, _ => Except.error "datetime format must be YYYY-MM-DD HH:MM (optional :SS)"

/-- Is the result an error response (HTTP 400 with a JSON `error`)? -/
def isErr {ε α} : Except ε α → Bool
  | Except.error _ => true
  | Except.ok _ => false

/-- C9: the query endpoint rejects (HTTP 400, no state mutation — the
validator is a pure function of the request and `now`) exactly when a
datetime is missing, fails to parse in either accepted format, the start
is strictly in the future, or the now-clamped end is not strictly after
the start; and when it accepts, the end is clamped to `now` rather than
rejected and the window is the parsed `(start, min end now)`. -/
theorem api_query_validation (start_dt end_dt : Option String) (now : Nat) :
    (isErr (api_query_validate start_dt end_dt now) = true ↔
      ((start_dt.getD "") = "" ∨ (end_dt.getD "") = ""
        ∨ parse_ca_input_datetime (start_dt.getD "") false = none
        ∨ parse_ca_input_datetime (end_dt.getD "") true = none
        ∨ (∃ s, parse_ca_input_datetime (start_dt.getD "") false = some s ∧ now < s)
        ∨ (∃ s e, parse_ca_input_datetime (start_dt.getD "") false = some s
            ∧ parse_ca_input_datetime (end_dt.getD "") true = some e
            ∧ s ≤ now ∧ min e now ≤ s)))
    ∧ (∀ s e, parse_ca_input_datetime (start_dt.getD "") false = some s →
        parse_ca_input_datetime (end_dt.getD "") true = some e →
        (start_dt.getD "") ≠ "" → (end_dt.getD "") ≠ "" →
        s ≤ now → s < min e now →
        api_query_validate start_dt end_dt now = Except.ok (s, min e now)) := by
  constructor
  · unfold api_query_validate
    split_ifs with hmiss
    · simp only [isErr, true_iff]
      rcases hmiss with h | h
      · exact Or.inl h
      · exact Or.inr (Or.inl h)
    · push_neg at hmiss
      obtain ⟨hs, he⟩ := hmiss
      rcases hps : parse_ca_input_datetime (start_dt.getD "") false with _ | s <;>
        rcases hpe : parse_ca_input_datetime (end_dt.getD "") true with _ | e
      · simp only [isErr]
        tauto
      · simp only [isErr]
        tauto
      · simp only [isErr]
        tauto
      · dsimp only
        rw [clampEnd_eq_min]
        by_cases h1 : now < s
        · rw [if_pos h1]
          simp only [isErr, true_iff]
          exact Or.inr (Or.inr (Or.inr (Or.inr (Or.inl ⟨s, rfl, h1⟩))))
        · rw [if_neg h1]
          by_cases h2 : min e now ≤ s
          · rw [if_pos h2]
            simp only [isErr, true_iff]
            exact Or.inr (Or.inr (Or.inr (Or.inr (Or.inr ⟨s, e, rfl, rfl, by omega, h2⟩))))
          · rw [if_neg h2]
            simp only [isErr, Bool.false_eq_true, false_iff, not_or]
            refine ⟨hs, he, by simp, by simp, ?_, ?_⟩
            · rintro ⟨s', hs', hlt⟩
              cases hs'
              omega
            · rintro ⟨s', e', hs', he', hle, hmin⟩
              cases hs'
              cases he'
              omega
  · intro s e hps hpe hs he hsn hse
    unfold api_query_validate
    rw [if_neg (by tauto)]
    rw [hps, hpe]
    dsimp only
    rw [clampEnd_eq_min, if_neg (by omega : ¬ now < s),
      if_neg (by omega : ¬ min e now ≤ s)]

/-- C9 witness: a concrete request whose end lies beyond `now` is clamped
to `now` and accepted (with `now` = 2026-01-07 12:00:00 CA). -/
theorem api_query_validation_witness :
    api_query_validate (some "2026-01-07 00:00") (some "2026-01-08 00:00")
        (caSeconds 2026 1 7 12 0 0)
      = Except.ok (caSeconds 2026 1 7 0 0 0, caSeconds 2026 1 7 12 0 0) := by
  have h := (api_query_validation (some "2026-01-07 00:00") (some "2026-01-08 00:00")
      (caSeconds 2026 1 7 12 0 0)).2
      (caSeconds 2026 1 7 0 0 0) (caSeconds 2026 1 8 0 0 59)
      (by decide) (by decide) (by decide) (by decide) (by decide) (by decide)
  rw [h]
  norm_num [caSeconds, daysFromCivil]

/-! ### Workbook ingestor — serial normalization and row parsing
(sources: `_normalize_sn` lines 2255-2278, `_extract_mmdd_entries`
lines 2281-2302, and the data-row loop of `run_bonepile_parse_job`
lines 1520-1589) -/

/-- Decimal digits to a number. -/
def digitsToNat (l : List Char) : Nat :=
  l.foldl (fun n c => n * 10 + (c.toNat - 48)) 0

/-- Full-match of `\d+(\.\d+)?E\+\d+` (case-insensitive `E`): returns
(integer digits, fraction digits, exponent digits).  All digit runs are
maximal, which is exactly the regex's behavior since the characters
following each run (`.`/`E`/`+`/end) are not digits. -/
def parseSci (l : List Char) : Option (List Char × List Char × List Char) :=
  let d1 := l.takeWhile Char.isDigit
  if d1.length = 0 then none
  else
    let expPart := fun (frac : List Char) (cont : List Char) =>
      match cont with
      | e :: '+' :: r3 =>
        if e = 'E' ∨ e = 'e' then
          let d3 := r3.takeWhile Char.isDigit
          if d3.length = 0 then none
          else if (r3.drop d3.length).isEmpty then some (d1, frac, d3) else none
        else none
      | _ => none
    match l.drop d1.length with
    | '.' :: r =>
      let d2 := r.takeWhile Char.isDigit
      if d2.length = 0 then none else expPart d2 (r.drop d2.length)
    | rest => expPart [] rest

/-- Python `str(int(float(s)))` for a matched scientific-notation string,
modelled by exact arithmetic: `int` truncates toward zero, so the result
is `⌊mantissa · 10^exp⌋`.  (The binary-float round-trip is assumed exact;
values whose 53-bit rounding would change the digits, or whose exponent
overflows to `inf`, are beyond the 13-digit serials this feeds.) -/
def sciToIntStr (intd frac expd : List Char) : List Char :=
  let e := digitsToNat expd
  let v := digitsToNat (intd ++ frac) * 10 ^ e / 10 ^ frac.length
  (Nat.repr v).data

/-- Full-match of `\d+\.0`. -/
def isTrailingDotZero (l : List Char) : Bool :=
  let n := l.length
  decide (3 ≤ n) && (l.take (n - 2)).all Char.isDigit && decide (l.drop (n - 2) = ['.', '0'])

/-- Final steps of `_normalize_sn`: `re.sub(r"[^\d]", "", s)` followed by
the 13-digit `18`-prefix acceptance check. -/
def acceptSn (l : List Char) : Option String :=
  let s3 := l.filter Char.isDigit
  if s3.length = 13 ∧ s3.take 2 = ['1', '8'] then some (String.mk s3) else none

/-- Source `_normalize_sn`: strip, undo scientific notation and a trailing
`.0`, remove all non-digits, and accept only a 13-digit string starting
`18`. -/
def normalize_sn (v : Option String) : Option String :=
  match v with
  | none => none
  | some v0 =>
    let s := stripChars v0.data
    if s.isEmpty then none
    else
      let s1 :=
        match parseSci s with
        | some (d1, frac, expd) => sciToIntStr d1 frac expd
        | none => s
      let s2 := if isTrailingDotZero s1 then s1.take (s1.length - 2) else s1
      acceptSn s2

/-- Word characters for the regex `\b` boundary (ASCII `[A-Za-z0-9_]`). -/
def isWordChar (c : Char) : Bool := c.isAlphanum || c = '_'

/-- Attempt `\d{1,2}/\d{1,2}\b` at the head with a given split of digit
lengths; returns the length consumed. -/
def mmddTry (n1 n2 : Nat) (l : List Char) : Option Nat :=
  let p1 := l.take n1
  if p1.length = n1 ∧ p1.all Char.isDigit then
    match l.drop n1 with
    | '/' :: r2 =>
      let p2 := r2.take n2
      if p2.length = n2 ∧ p2.all Char.isDigit then
        match r2.drop n2 with
        | [] => some (n1 + 1 + n2)
        | c :: _ => if isWordChar c then none else some (n1 + 1 + n2)
      else none
    | _ => none
  else none

/-- Attempt `\d{1,2}/\d{1,2}\b` at the head, in the regex's greedy
backtracking order (2,2), (2,1), (1,2), (1,1). -/
def mmddAt (l : List Char) : Option Nat :=
  match mmddTry 2 2 l with
  | some n => some n
  | none =>
    match mmddTry 2 1 l with
    | some n => some n
    | none =>
      match mmddTry 1 2 l with
      | some n => some n
      | none => mmddTry 1 1 l

/-- Left-to-right non-overlapping scan for `\b\d{1,2}/\d{1,2}\b`
(`re.finditer` semantics); `prevW` tracks whether the previous character
is a word character (for the leading `\b`).  Fuel is the list length
(every step consumes at least one character). -/
def countMMDDAux : Nat → List Char → Bool → Nat
  | 0, _, _ => 0
  | _ + 1, [], _ => 0
  | fuel + 1, c :: rest, prevW =>
    if prevW then countMMDDAux fuel rest (isWordChar c)
    else
      match mmddAt (c :: rest) with
      | some len => 1 + countMMDDAux fuel ((c :: rest).drop len) true
      | none => countMMDDAux fuel rest (isWordChar c)

/-- `len(_extract_mmdd_entries(text))`: every segment starts at a match
(hence is non-empty after strip), so the count equals the number of
`\b\d{1,2}/\d{1,2}\b` matches. -/
def countMMDD (s : String) : Nat := countMMDDAux s.data.length s.data false

/-- The canonical-field → 1-based column index map resolved for a sheet. -/
structure ColMap where
  sn : Nat
  nv_disposition : Nat
  status : Nat
  pic : Nat
  igs_action : Nat
  igs_status : Nat
  nvpn : Nat
deriving DecidableEq, Repr

/-- One row of `bonepile_entries` (schema at `init_db` lines 437-455). -/
structure BPRow where
  sheet : String
  excel_row : Nat
  sn : String
  nvpn : String
  status : String
  pic : String
  igs_status : String
  nv_disposition : String
  igs_action : String
  nv_dispo_count : Nat
  igs_action_count : Nat
  updated_at_ca_ms : Nat
deriving DecidableEq, Repr

/-- Python `row[col-1] if col > 0 and col <= len(row) else None` (the SN
cell access). -/
def snCell (row : List (Option String)) (idx : Nat) : Option String :=
  if 0 < idx ∧ idx ≤ row.length then (row.get? (idx - 1)).join else none

/-- The inner `cell(idx)` helper: out-of-range columns give `""`, `None`
cells give `""`, other cells are stringified and stripped. -/
def cellAt (row : List (Option String)) (idx : Nat) : String :=
  if idx = 0 ∨ row.length < idx then ""
  else
    match row.get? (idx - 1) with
    | some (some v) => pyStrip v
    | _ => ""

/-- The data-row loop of `run_bonepile_parse_job` (lines 1526-1580):
normalize the SN cell; a row that does not normalize increments the
consecutive-blank streak (200 in a row abort the sheet), a row that does
resets the streak and inserts a `bonepile_entries` row.  The
`INSERT OR REPLACE` key `(sheet, excel_row)` is unique per iteration, so
inserts are plain appends. -/
def parseDataRows (sheet : String) (cm : ColMap) (now : Nat) :
    List (List (Option String)) → Nat → Nat → List BPRow
  | [], _, _ => []
  | row :: rest, idx, streak =>
    match normalize_sn (snCell row cm.sn) with
    | none =>
      if streak + 1 ≥ 200 then []
      else parseDataRows sheet cm now rest (idx + 1) (streak + 1)
    | some sn =>
      { sheet := sheet, excel_row := idx, sn := sn,
        nvpn := cellAt row cm.nvpn,
        status := cellAt row cm.status,
        pic := cellAt row cm.pic,
        igs_status := cellAt row cm.igs_status,
        nv_disposition := cellAt row cm.nv_disposition,
        igs_action := cellAt row cm.igs_action,
        nv_dispo_count := countMMDD (cellAt row cm.nv_disposition),
        igs_action_count := countMMDD (cellAt row cm.igs_action),
        updated_at_ca_ms := now } :: parseDataRows sheet cm now rest (idx + 1) 0

theorem all_filter_self (p : Char → Bool) (l : List Char) :
    (l.filter p).all p = true := by
  rw [List.all_eq_true]
  intro x hx
  exact List.of_mem_filter hx

/-- An accepted serial is 13 digits starting `18`. -/
theorem acceptSn_valid (l : List Char) (s : String) (h : acceptSn l = some s) :
    s.length = 13 ∧ s.data.take 2 = ['1', '8'] ∧ s.data.all Char.isDigit = true := by
  unfold acceptSn at h
  dsimp only at h
  split_ifs at h with hg
  cases h
  exact ⟨hg.1, hg.2, all_filter_self ..⟩

/-- A normalized serial is always 13 digits starting `18`. -/
theorem normalize_sn_valid (v : Option String) (s : String)
    (h : normalize_sn v = some s) :
    s.length = 13 ∧ s.data.take 2 = ['1', '8'] ∧ s.data.all Char.isDigit = true := by
  unfold normalize_sn at h
  split at h
  next => exact absurd h (by simp)
  next v0 =>
    dsimp only at h
    split_ifs at h <;>
      first
      | exact absurd h (by simp)
      | exact acceptSn_valid _ _ h

theorem parseDataRows_sn_valid (sheet : String) (cm : ColMap) (now : Nat) :
    ∀ (rows : List (List (Option String))) (idx streak : Nat) (r : BPRow),
      r ∈ parseDataRows sheet cm now rows idx streak →
      r.sn.length = 13 ∧ r.sn.data.take 2 = ['1', '8']
        ∧ r.sn.data.all Char.isDigit = true := by
  intro rows
  induction rows with
  | nil => intro idx streak r h; exact absurd h (List.not_mem_nil _)
  | cons row rest ih =>
    intro idx streak r h
    rw [parseDataRows] at h
    split at h
    next =>
      split_ifs at h
      · exact absurd h (List.not_mem_nil _)
      · exact ih _ _ r h
    next sn hsn =>
      rcases List.mem_cons.mp h with h | h
      · subst h
        exact normalize_sn_valid _ _ hsn
      · exact ih _ _ r h

theorem parseDataRows_blank_streak (sheet : String) (cm : ColMap) (now : Nat) :
    ∀ (pre post : List (List (Option String))) (idx streak : Nat),
      1 ≤ pre.length → 200 ≤ streak + pre.length →
      (∀ row ∈ pre, normalize_sn (snCell row cm.sn) = none) →
      parseDataRows sheet cm now (pre ++ post) idx streak = [] := by
  intro pre
  induction pre with
  | nil => intro post idx streak h1 _ _; simp at h1
  | cons row rest ih =>
    intro post idx streak _ h2 hblank
    have hrow : normalize_sn (snCell row cm.sn) = none :=
      hblank row (List.mem_cons_self ..)
    rw [List.cons_append, parseDataRows, hrow]
    by_cases hs : streak + 1 ≥ 200
    · rw [if_pos hs]
    · rw [if_neg hs]
      have hlen : 1 ≤ rest.length := by
        by_contra hc
        have : rest.length = 0 := by omega
        simp only [List.length_cons] at h2
        omega
      exact ih post (idx + 1) (streak + 1) hlen (by simp at h2 ⊢; omega)
        (fun r hr => hblank r (List.mem_cons_of_mem _ hr))

/-- C10: during sheet parsing, (a) every row stored in `bonepile_entries`
has a 13-digit serial starting `18`, and (b) a non-normalizing SN cell —
blank OR merely invalid — counts towards the consecutive-blank streak, so
200 consecutive such rows abort the sheet and nothing after them (valid
rows included) is inserted. -/
theorem bonepile_rows_sn_valid_and_termination (sheet : String) (cm : ColMap) (now : Nat) :
    (∀ (rows : List (List (Option String))) (idx streak : Nat) (r : BPRow),
      r ∈ parseDataRows sheet cm now rows idx streak →
      r.sn.length = 13 ∧ r.sn.data.take 2 = ['1', '8']
        ∧ r.sn.data.all Char.isDigit = true)
    ∧ (∀ (pre post : List (List (Option String))) (idx : Nat),
      pre.length = 200 →
      (∀ row ∈ pre, normalize_sn (snCell row cm.sn) = none) →
      parseDataRows sheet cm now (pre ++ post) idx 0 = []) :=
  ⟨parseDataRows_sn_valid sheet cm now,
   fun pre post idx hlen hblank =>
     parseDataRows_blank_streak sheet cm now pre post idx 0 (by omega) (by omega) hblank⟩

/-- The column map used by the C10 witness (SN in column 1). -/
def witnessColMap : ColMap :=
  { sn := 1, nv_disposition := 2, status := 3, pic := 4,
    igs_action := 5, igs_status := 6, nvpn := 7 }

/-- C10 witness: a parsed row's serial is 13 digits starting `18`, and 200
consecutive rows whose SN cell is non-empty but invalid (`"12345"`)
terminate parsing even though a valid row follows them. -/
theorem bonepile_rows_sn_valid_and_termination_witness :
    (("1830126000087" : String).length = 13
      ∧ ("1830126000087" : String).data.take 2 = ['1', '8']
      ∧ ("1830126000087" : String).data.all Char.isDigit = true)
    ∧ parseDataRows "VR-TS1" witnessColMap 7
        (List.replicate 200 [some "12345"] ++ [[some "1830126000087"]]) 2 0 = [] := by
  constructor
  · exact (bonepile_rows_sn_valid_and_termination "VR-TS1" witnessColMap 7).1
      [[some "1830126000087", some "10/28: x", some "FAIL", some "IGS", some "", some ""]]
      2 0
      { sheet := "VR-TS1", excel_row := 2, sn := "1830126000087", nvpn := "",
        status := "FAIL", pic := "IGS", igs_status := "", nv_disposition := "10/28: x",
        igs_action := "", nv_dispo_count := 1, igs_action_count := 0,
        updated_at_ca_ms := 7 }
      (by decide)
  · exact (bonepile_rows_sn_valid_and_termination "VR-TS1" witnessColMap 7).2
      (List.replicate 200 [some "12345"]) [[some "1830126000087"]] 2
      (List.length_replicate ..)
      (fun row hr => by
        rw [List.eq_of_mem_replicate hr]
        decide)

/-! ### Workbook ingestor — per-sheet step and hash skip
(sources: `_hash_sheet_content` lines 2311-2328, `_find_header_row`,
`_read_header_map`, `_auto_mapping_from_headers`, `_mapping_errors`
lines 2331-2395, and the per-sheet body of `run_bonepile_parse_job`
lines 1454-1595) -/

/-- SHA-256 content hash of a sheet, modelled by its preimage: the exact
serialization `_hash_sheet_content` feeds to SHA-256 (first 10 000 rows,
cells joined with `|` and `None` as `""`, newline-terminated, row count
appended), prefixed `sha256:`.  The stand-in keeps the two digest
properties the skip logic relies on — deterministic and never empty. -/
def hashSheetContent (content : List (List (Option String))) : String :=
  let rows := content.take 10000
  "sha256:"
    ++ rows.foldl (fun acc row =>
        acc ++ String.intercalate "|" (row.map (fun v => v.getD "")) ++ "\n") ""
    ++ toString rows.length

/-- Source `_find_header_row`: 1-based index of the first row among the
first 300 whose cell strips/uppercases to exactly `SN`. -/
def find_header_row (content : List (List (Option String))) : Option Nat :=
  match (content.take 300).findIdx? (fun row =>
      row.any (fun v =>
        match v with
        | some s => pyUpper (pyStrip s) = "SN"
        | none => false)) with
  | some i => some (i + 1)
  | none => none

/-- Python dict assignment `m[k] = v` on an insertion-ordered map. -/
def dictInsert (m : List (String × Nat)) (k : String) (v : Nat) : List (String × Nat) :=
  if m.any (fun p => p.1 = k) then m.map (fun p => if p.1 = k then (k, v) else p)
  else m ++ [(k, v)]

/-- Python `m.get(k)`. -/
def dictGet (m : List (String × Nat)) (k : String) : Option Nat :=
  (m.find? (fun p => p.1 = k)).map (fun p => p.2)

/-- 1-based enumeration. -/
def enumFrom1 {α} : Nat → List α → List (Nat × α)
  | _, [] => []
  | n, x :: xs => (n, x) :: enumFrom1 (n + 1) xs

/-- Source `_read_header_map`: header-name (stripped, uppercased) →
1-based column index over the first 80 columns of the header row. -/
def read_header_map (row : List (Option String)) : List (String × Nat) :=
  (enumFrom1 1 row).foldl (fun m jc =>
    if 80 < jc.1 then m
    else
      match jc.2 with
      | none => m
      | some cname =>
        let name := pyStrip cname
        if name = "" then m else dictInsert m (pyUpper name) jc.1) []

/-- The `pick(*names)` helper of `_auto_mapping_from_headers`: first
header name resolving to a truthy (non-zero) column. -/
def pickHeader (hm : List (String × Nat)) : List String → Nat
  | [] => 0
  | n :: rest =>
    match dictGet hm (pyUpper n) with
    | some idx => if idx = 0 then pickHeader hm rest else idx
    | none => pickHeader hm rest

/-- Source `_auto_mapping_from_headers` (the trailing-space synonym is
kept verbatim from the source; header keys are stripped so it never
matches). -/
def auto_mapping_from_headers (hm : List (String × Nat)) : ColMap :=
  { sn := pickHeader hm ["SN"]
    nv_disposition := pickHeader hm ["NV DISPOSITION", "NV DISPO", "NV DISPOSITION "]
    status := pickHeader hm ["STATUS"]
    pic := pickHeader hm ["PIC"]
    igs_action := pickHeader hm ["IGS ACTION"]
    igs_status := pickHeader hm ["IGS STATUS"]
    nvpn := pickHeader hm ["NVPN", "PART NUMBER", "PART NUMBERS", "SKU"] }

/-- A user-saved column override: a header-name string or a 1-based
index (design note 9's `ByName`/`ByIndex`). -/
inductive ColSpec where
  | byName (s : String)
  | byIndex (i : Nat)
deriving DecidableEq, Repr

/-- Python falsiness of a stored column value (`if not v: continue`). -/
def colSpecFalsy : ColSpec → Bool
  | .byName s => s = ""
  | .byIndex i => i = 0

/-- Resolve one user column value against the header map. -/
def resolveUserCol (hm : List (String × Nat)) : ColSpec → Nat
  | .byName s => (dictGet hm (pyUpper (pyStrip s))).getD 0
  | .byIndex i => i

/-- The per-sheet user mapping (`cfg["columns"]`). -/
structure UserCols where
  sn : Option ColSpec := none
  nv_disposition : Option ColSpec := none
  status : Option ColSpec := none
  pic : Option ColSpec := none
  igs_action : Option ColSpec := none
  igs_status : Option ColSpec := none
  nvpn : Option ColSpec := none
deriving DecidableEq, Repr

/-- One canonical field: user value if present and truthy, else the
auto-mapping (`col_map.setdefault` fills the gaps). -/
def resolveField (hm : List (String × Nat)) (u : Option ColSpec) (auto : Nat) : Nat :=
  match u with
  | some v => if colSpecFalsy v then auto else resolveUserCol hm v
  | none => auto

def resolveCols (hm : List (String × Nat)) (u : UserCols) (auto : ColMap) : ColMap :=
  { sn := resolveField hm u.sn auto.sn
    nv_disposition := resolveField hm u.nv_disposition auto.nv_disposition
    status := resolveField hm u.status auto.status
    pic := resolveField hm u.pic auto.pic
    igs_action := resolveField hm u.igs_action auto.igs_action
    igs_status := resolveField hm u.igs_status auto.igs_status
    nvpn := resolveField hm u.nvpn auto.nvpn }

/-- Source `_mapping_errors`: one message per missing required field,
plus a sample of available headers when anything is missing. -/
def mapping_errors (cm : ColMap) (hm : List (String × Nat)) : List String :=
  let req : List (String × Nat) :=
    [("sn", cm.sn), ("nv_disposition", cm.nv_disposition), ("status", cm.status),
     ("pic", cm.pic), ("igs_action", cm.igs_action), ("igs_status", cm.igs_status)]
  let missing := (req.filter (fun p => p.2 = 0)).map
    (fun p => "Missing column for " ++ p.1)
  if missing.isEmpty then []
  else missing
    ++ ["Available headers: " ++ String.intercalate ", " ((hm.take 25).map (fun p => p.1))]

/-- Per-sheet saved configuration (`state.bonepile_mapping[sheet]`):
`header_row = 0` models an unset/falsy value. -/
structure SheetCfg where
  header_row : Nat := 0
  columns : Option UserCols := none
deriving DecidableEq, Repr

/-- One sheet's parse-status dict (`state.bonepile_sheet_status[sheet]`);
absent dict keys are `none`. -/
structure SheetStatus where
  status : Option String := none
  error : Option String := none
  rows : Option Nat := none
  header_row : Option Nat := none
  last_run_ca_ms : Option Nat := none
  content_hash : Option String := none
  skipped : Option Bool := none
  skip_reason : Option String := none
deriving DecidableEq, Repr

/-- The non-skip body of the per-sheet step: resolve the header row (user
override else auto-detect), build the header map (a user `header_row`
beyond the sheet is modelled as an empty header row), resolve the column
mapping, and either record an error status (leaving the sheet's
`bonepile_entries` rows untouched) or replace the sheet's rows with the
parsed ones.  Every produced status records the current content hash. -/
def processSheetParse (sheet : String) (cfg : Option SheetCfg)
    (content : List (List (Option String))) (now : Nat)
    (prevEntries : List BPRow) (current_hash : String) : List BPRow × SheetStatus :=
  let header_row :=
    match cfg with
    | some c => if c.header_row ≠ 0 then c.header_row else (find_header_row content).getD 0
    | none => (find_header_row content).getD 0
  if header_row = 0 then
    (prevEntries,
      { status := some "error", error := some "Header row not found (SN)",
        last_run_ca_ms := some now, content_hash := some current_hash })
  else
    let hm := read_header_map ((content.get? (header_row - 1)).getD [])
    let auto := auto_mapping_from_headers hm
    let cm :=
      match cfg with
      | some c =>
        match c.columns with
        | some u => resolveCols hm u auto
        | none => auto
      | none => auto
    let errs := mapping_errors cm hm
    if ¬ errs.isEmpty then
      (prevEntries,
        { status := some "error", error := some (String.intercalate "; " (errs.take 3)),
          header_row := some header_row, last_run_ca_ms := some now,
          content_hash := some current_hash })
    else
      let entries := parseDataRows sheet cm now (content.drop header_row) (header_row + 1) 0
      (entries,
        { status := some "ok", rows := some entries.length,
          header_row := some header_row, last_run_ca_ms := some now,
          content_hash := some current_hash })

/-- The per-sheet step of `run_bonepile_parse_job` (lines 1454-1589): if a
previously stored, truthy content hash equals the current one, skip —
keep the sheet's rows and its previous status, updating only the last-run
timestamp, the `skipped` flag, and `skip_reason`; otherwise parse. -/
def processSheet (sheet : String) (cfg : Option SheetCfg)
    (content : List (List (Option String))) (now : Nat)
    (prevEntries : List BPRow) (prevStatus : Option SheetStatus) :
    List BPRow × SheetStatus :=
  match prevStatus with
  | some st =>
    match st.content_hash with
    | some h =>
      if h ≠ "" ∧ h = hashSheetContent content then
        (prevEntries,
          { st with
              last_run_ca_ms := some now
              skipped := some true
              skip_reason := some "Content unchanged (hash match)" })
      else processSheetParse sheet cfg content now prevEntries (hashSheetContent content)
    | none => processSheetParse sheet cfg content now prevEntries (hashSheetContent content)
  | none => processSheetParse sheet cfg content now prevEntries (hashSheetContent content)

theorem hashSheetContent_ne_empty (content : List (List (Option String))) :
    hashSheetContent content ≠ "" := by
  unfold hashSheetContent
  intro h
  have hlen := congrArg String.length h
  rw [String.length_append, String.length_append] at hlen
  have h7 : ("sha256:" : String).length = 7 := rfl
  have h0 : ("" : String).length = 0 := rfl
  rw [h7, h0] at hlen
  omega

theorem processSheetParse_hash (sheet : String) (cfg : Option SheetCfg)
    (content : List (List (Option String))) (now : Nat)
    (prevEntries : List BPRow) (current_hash : String) :
    (processSheetParse sheet cfg content now prevEntries current_hash).2.content_hash
      = some current_hash := by
  unfold processSheetParse
  dsimp only
  split_ifs <;> rfl

/-- Every status produced by the per-sheet step records the current
content hash. -/
theorem processSheet_hash (sheet : String) (cfg : Option SheetCfg)
    (content : List (List (Option String))) (now : Nat)
    (prevEntries : List BPRow) (prevStatus : Option SheetStatus) :
    (processSheet sheet cfg content now prevEntries prevStatus).2.content_hash
      = some (hashSheetContent content) := by
  unfold processSheet
  rcases prevStatus with _ | st
  · exact processSheetParse_hash ..
  · dsimp only
    rcases hch : st.content_hash with _ | h
    · exact processSheetParse_hash ..
    · dsimp only
      split_ifs with hcond
      · simp [hcond.2]
      · exact processSheetParse_hash ..

/-- When the stored hash is truthy and matches, the step is exactly the
frame-preserving skip. -/
theorem processSheet_skip (sheet : String) (cfg : Option SheetCfg)
    (content : List (List (Option String))) (now : Nat)
    (prevEntries : List BPRow) (st : SheetStatus)
    (hh : st.content_hash = some (hashSheetContent content)) :
    processSheet sheet cfg content now prevEntries (some st)
      = (prevEntries,
         { st with
             last_run_ca_ms := some now
             skipped := some true
             skip_reason := some "Content unchanged (hash match)" }) := by
  unfold processSheet
  dsimp only
  split
  next h heq =>
    rw [hh] at heq
    injection heq with heq2
    subst heq2
    rw [if_pos ⟨hashSheetContent_ne_empty content, rfl⟩, hh]
  next heq =>
    rw [hh] at heq
    simp at heq

/-- Concrete sheet content and previous status used to refute C8 as
stated. -/
def c8content : List (List (Option String)) :=
  [[some "SN", some "NV Disposition", some "Status", some "PIC",
    some "IGS Action", some "IGS Status"],
   [some "1830126000087", some "10/28: swap", some "FAIL", some "IGS", some "", some ""]]

/-- A previous `ok` status for `c8content` whose `skip_reason` key is
absent. -/
def c8prev : SheetStatus :=
  { status := some "ok", rows := some 1, header_row := some 1, last_run_ca_ms := some 1,
    content_hash := some (hashSheetContent c8content) }

/-- C8 is false as stated: on a hash-matching re-parse the sheet status is
NOT merely the previous status with the last-run timestamp and `skipped`
flag updated — the skip also writes `skip_reason`, a third field. -/
theorem skip_updates_skip_reason_too :
    (processSheet "VR-TS1" none c8content 5 [] (some c8prev)).2
      ≠ { c8prev with last_run_ca_ms := some 5, skipped := some true } := by
  decide

/-- C8 amended: if the sheet's stored content hash equals the current
content's hash, the step skips: the sheet's `bonepile_entries` rows are
unchanged and the status is the previous one with exactly the last-run
timestamp, `skipped := true`, and `skip_reason` updated
(`processSheet_skip` shape); since every pass stores the current hash,
parsing the same workbook bytes twice means the second pass always
skips — in particular one row-insertion pass, then one skip. -/
theorem processSheet_second_run_skips (sheet : String) (cfg : Option SheetCfg)
    (content : List (List (Option String))) (now1 now2 : Nat)
    (prevEntries : List BPRow) (prevStatus : Option SheetStatus) :
    processSheet sheet cfg content now2
        (processSheet sheet cfg content now1 prevEntries prevStatus).1
        (some (processSheet sheet cfg content now1 prevEntries prevStatus).2)
      = ((processSheet sheet cfg content now1 prevEntries prevStatus).1,
         { (processSheet sheet cfg content now1 prevEntries prevStatus).2 with
             last_run_ca_ms := some now2
             skipped := some true
             skip_reason := some "Content unchanged (hash match)" }) :=
  processSheet_skip sheet cfg content now2 _ _ (processSheet_hash ..)

end Bonepile
